import Mathlib

/-!
Verification development for the cf_ai_dev_copilot repository.

The embedding models the conversation-orchestration and session-persistence
core of the repository:

* `DevCopilotAgent` (Durable Object in `src/durable-objects/…`, file
  `unnamed/part_002`): message history, project context with merge
  semantics, session metadata, `clearSession`, `deleteMessage`.
* `RateLimiter` (`src/api/rate-limiter.ts`): fixed-window counter.
* The chat orchestrator's step budget (`src/server.ts`, which configures
  the external ai-sdk loop with `stopWhen: stepCountIs(10)`).

Conventions of the embedding:

* ISO-8601 timestamps are `String`s ordered lexicographically, matching
  SQLite's BINARY collation on the TEXT `timestamp` column.
* TypeScript `undefined` / SQL `NULL` for an optional field is `Option.none`;
  a JSON-serialised column whose stored text may fail `JSON.parse` is
  `Option (Parsed α)`, where `Parsed.corrupt` stands for text on which
  `JSON.parse` throws.  Writes performed by the agent always serialise
  well-formed values, so they store `Parsed.ok`.
* The `CloudflareService` string-literal union is modelled as `String`.
* `metadata` is carried as the opaque serialised TEXT column: the agent
  never inspects it.
* The in-memory `sessionCache` field is not modelled: every public read
  (`getSessionInfo` → `ensureSession`) goes to the SQL row, so the cache
  is not observable through the operations the claims mention.
-/

/-- Message roles, the `role` column CHECK of the `messages` table. -/
inductive Role
  | user
  | assistant
  | system
deriving DecidableEq, Repr

/-- A row of the `messages` table / the `ConversationMessage` interface.
`metadata` is the serialised TEXT column, carried opaquely. -/
structure ConversationMessage where
  id : String
  role : Role
  content : String
  timestamp : String
  metadata : Option String := none
deriving DecidableEq, Repr

/-- The `ResolvedIssue` interface. -/
structure ResolvedIssue where
  timestamp : String
  issue : String
  solution : String
  errorCodes : Option (List String) := none
  affectedFiles : Option (List String) := none
deriving DecidableEq, Repr

/-- The `ProjectContext` interface: every field optional, list fields for
error logs and resolved issues, a set-like list of Cloudflare service tags. -/
structure ProjectContext where
  workerCode : Option String := none
  errorLogs : Option (List String) := none
  resolvedIssues : Option (List ResolvedIssue) := none
  cloudflareServices : Option (List String) := none
  projectName : Option String := none
  lastUpdated : Option String := none
deriving DecidableEq, Repr

/-- Result of `JSON.parse` on a stored TEXT column: either the parsed value
or a parse failure (the thrown exception). -/
inductive Parsed (α : Type)
  | corrupt
  | ok (v : α)
deriving DecidableEq, Repr

/-- A row of the single-row `project_context` table.  Each JSON column is
`none` when the column is NULL, `some …` when it holds text. -/
structure CtxRow where
  worker_code : Option String := none
  error_logs : Option (Parsed (List String)) := none
  resolved_issues : Option (Parsed (List ResolvedIssue)) := none
  cloudflare_services : Option (Parsed (List String)) := none
  project_name : Option String := none
  last_updated : Option String := none
deriving DecidableEq, Repr

/-- Does `JSON.parse` throw on some column of the row?  In
`getProjectContext` the whole row construction is wrapped in one
`try … catch`, so any throwing column yields the empty context. -/
def CtxRow.anyCorrupt (r : CtxRow) : Bool :=
  (r.error_logs == some Parsed.corrupt) ||
  (r.resolved_issues == some Parsed.corrupt) ||
  (r.cloudflare_services == some Parsed.corrupt)

/-- Extract a successfully parsed column value (NULL column ↦ `undefined`). -/
def parsedVal {α : Type} : Option (Parsed α) → Option α
  | some (Parsed.ok v) => some v
  | _ => none

/-- `DevCopilotAgent.getProjectContext`: read the single `project_context`
row; return the empty context when the row is absent, and — through the
surrounding `catch` — when any stored JSON column fails to parse. -/
def getProjectContext : Option CtxRow → ProjectContext
  | none => {}
  | some r =>
      if r.anyCorrupt then {}
      else
        { workerCode := r.worker_code
          errorLogs := parsedVal r.error_logs
          resolvedIssues := parsedVal r.resolved_issues
          cloudflareServices := parsedVal r.cloudflare_services
          projectName := r.project_name
          lastUpdated := r.last_updated }

/-- One insertion into a JS `Set` (insertion order preserved, first
occurrence kept). -/
def dedupStep (acc : List String) (x : String) : List String :=
  if x ∈ acc then acc else acc ++ [x]

/-- JavaScript `[...new Set(l)]`: drop duplicates, keeping the first
occurrence of each element in insertion order. -/
def jsSetDedup (l : List String) : List String :=
  l.foldl dedupStep []

/-- The context merge inside `DevCopilotAgent.updateProjectContext`:
spread `{...existing, ...context}` (absent fields of the update do not
override), `lastUpdated` always refreshed, then the three list fields are
special-cased when — and only when — both sides carry them: error logs and
resolved issues are concatenated existing-first, service tags are the
JS-`Set` deduplicated union. -/
def mergeContext (existing upd : ProjectContext) (now : String) : ProjectContext :=
  { workerCode :=
      match upd.workerCode with
      | some v => some v
      | none => existing.workerCode
    projectName :=
      match upd.projectName with
      | some v => some v
      | none => existing.projectName
    lastUpdated := some now
    errorLogs :=
      match upd.errorLogs, existing.errorLogs with
      | some pe, some ce => some (ce ++ pe)
      | some pe, none => some pe
      | none, ce => ce
    resolvedIssues :=
      match upd.resolvedIssues, existing.resolvedIssues with
      | some pe, some ce => some (ce ++ pe)
      | some pe, none => some pe
      | none, ce => ce
    cloudflareServices :=
      match upd.cloudflareServices, existing.cloudflareServices with
      | some pe, some ce => some (jsSetDedup (ce ++ pe))
      | some pe, none => some pe
      | none, ce => ce }

/-- The upsert at the end of `updateProjectContext`: serialise the merged
context into the single `project_context` row.  Present list fields are
`JSON.stringify`-ed (always re-parseable, hence `Parsed.ok`), absent ones
stored as NULL. -/
def writeCtxRow (m : ProjectContext) : CtxRow :=
  { worker_code := m.workerCode
    error_logs := m.errorLogs.map Parsed.ok
    resolved_issues := m.resolvedIssues.map Parsed.ok
    cloudflare_services := m.cloudflareServices.map Parsed.ok
    project_name := m.projectName
    last_updated := m.lastUpdated }

/-- `DevCopilotAgent.updateProjectContext`: load the existing context,
merge the partial update into it at time `now`, upsert the merged row, and
return it (the `data` of the success result). -/
def updateProjectContext (row : Option CtxRow) (upd : ProjectContext)
    (now : String) : Option CtxRow × ProjectContext :=
  let existing := getProjectContext row
  let merged := mergeContext existing upd now
  (some (writeCtxRow merged), merged)

/-- The `SessionInfo` interface / the single `session_info` row. -/
structure SessionInfo where
  sessionId : String
  createdAt : String
  lastActivityAt : String
  messageCount : Nat
  isActive : Bool
deriving DecidableEq, Repr

/-- The durable state of one `DevCopilotAgent` instance: the `messages`
table, the single-row `project_context` table (absent when deleted), and
the single-row `session_info` table (absent between its DELETE and the
re-initialising INSERT). -/
structure AgentState where
  messages : List ConversationMessage
  contextRow : Option CtxRow
  session : Option SessionInfo
deriving DecidableEq, Repr

/-- `generateId()`: `Date.now()` concatenated with a random base-36 suffix.
The two nondeterministic sources are explicit arguments. -/
def generateId (nowMs : Nat) (rand : String) : String :=
  toString nowMs ++ "-" ++ rand

/-- `DevCopilotAgent.ensureSession`: return the stored session row if one
exists, otherwise insert and return a fresh one with `messageCount = 0`,
`isActive = true`, and a newly generated id.  `now` and `sid` are the
timestamp and generated id drawn when (and only when) the row is absent. -/
def ensureSession (sess : Option SessionInfo) (now sid : String) : SessionInfo :=
  match sess with
  | some s => s
  | none =>
      { sessionId := sid
        createdAt := now
        lastActivityAt := now
        messageCount := 0
        isActive := true }

/-- `DevCopilotAgent.getSessionInfo` = `ensureSession` on the current row. -/
def getSessionInfo (s : AgentState) (now sid : String) : SessionInfo :=
  ensureSession s.session now sid

/-- `DevCopilotAgent.clearSession`: DELETE all messages, the
`project_context` row and the `session_info` row, then re-initialise a
fresh session via `ensureSession` (which generates id `sid` at time `now`). -/
def clearSession (s : AgentState) (now sid : String) : AgentState :=
  let _ := s
  { messages := []
    contextRow := none
    session := some (ensureSession none now sid) }

/-- `DevCopilotAgent.deleteMessage`: `DELETE FROM messages WHERE id = ?`,
returning `true`.  No other table is touched: in particular neither
`incrementMessageCount` nor `updateSessionActivity` is called. -/
def deleteMessage (s : AgentState) (mid : String) : AgentState × Bool :=
  ({ s with messages := s.messages.filter (fun m => m.id != mid) }, true)

/-- The `GetHistoryOptions` interface. -/
structure GetHistoryOptions where
  limit : Option Nat := none
  role : Option Role := none
  after : Option String := none
  before : Option String := none

/-- The conjunctive WHERE clause of `getConversationHistory`: role
equality, `timestamp > after`, `timestamp < before`, each only when the
option is supplied. -/
def matchesFilter (opts : GetHistoryOptions) (m : ConversationMessage) : Bool :=
  (match opts.role with
   | some r => m.role == r
   | none => true) &&
  (match opts.after with
   | some a => decide (a < m.timestamp)
   | none => true) &&
  (match opts.before with
   | some b => decide (m.timestamp < b)
   | none => true)

/-- `ORDER BY timestamp DESC`: newest first.  (Among equal timestamps SQL
leaves the order unspecified; any descending sort realises the model.) -/
def tsDescRel (a b : ConversationMessage) : Prop :=
  b.timestamp ≤ a.timestamp

instance : DecidableRel tsDescRel :=
  fun a b => inferInstanceAs (Decidable (b.timestamp ≤ a.timestamp))

instance : IsTotal ConversationMessage tsDescRel :=
  ⟨fun a b => (le_total b.timestamp a.timestamp)⟩

instance : IsTrans ConversationMessage tsDescRel :=
  ⟨fun _ _ _ hab hbc => le_trans hbc hab⟩

/-- `DevCopilotAgent.getConversationHistory`: filter, `ORDER BY timestamp
DESC`, `LIMIT` only when a positive limit is supplied, then
`rows.reverse()` to ascending chronological order. -/
def getConversationHistory (msgs : List ConversationMessage)
    (opts : GetHistoryOptions) : List ConversationMessage :=
  let filtered := msgs.filter (matchesFilter opts)
  let sorted := List.insertionSort tsDescRel filtered
  let limited :=
    match opts.limit with
    | some n => if 0 < n then sorted.take n else sorted
    | none => sorted
  limited.reverse

/-- `RateLimitConfig` of `src/api/rate-limiter.ts`. -/
structure RateLimitConfig where
  maxRequests : Nat
  windowMs : Nat

/-- `RateLimitEntry`: the per-key `{count, resetAt}` record. -/
structure RateLimitEntry where
  count : Nat
  resetAt : Nat
deriving DecidableEq, Repr

/-- `RateLimitResult` (the `resetAt : Date` is kept as its millisecond
value; `retryAfter` is the ceiling of the remaining window in seconds). -/
structure RateLimitResult where
  allowed : Bool
  remaining : Nat
  limit : Nat
  resetAt : Nat
  retryAfter : Option Nat := none
deriving DecidableEq, Repr

/-- The limiter's `Map<string, RateLimitEntry>` store. -/
def RLStore : Type := List (String × RateLimitEntry)

/-- `Map.get`. -/
def rlGet (st : RLStore) (k : String) : Option RateLimitEntry :=
  (List.find? (fun p => p.1 == k) st).map (fun p => p.2)

/-- `Map.set`: replace the entry for `k` when present, append otherwise. -/
def rlSet : RLStore → String → RateLimitEntry → RLStore
  | [], k, e => [(k, e)]
  | (k', e') :: rest, k, e =>
      if k' == k then (k, e) :: rest else (k', e') :: rlSet rest k e

/-- `RateLimiter.check`: fresh window when no entry exists or
`now > entry.resetAt`; increment while `count < maxRequests`; otherwise
reject with `retryAfter = ceil((resetAt - now) / 1000)` seconds.  Returns
the result and the updated store (the in-place `entry.count++` of the
source mutates the object held by the `Map`). -/
def RateLimiter.check (cfg : RateLimitConfig) (st : RLStore) (k : String)
    (now : Nat) : RateLimitResult × RLStore :=
  match rlGet st k with
  | none =>
      let resetAt := now + cfg.windowMs
      ({ allowed := true
         remaining := cfg.maxRequests - 1
         limit := cfg.maxRequests
         resetAt := resetAt }, rlSet st k { count := 1, resetAt := resetAt })
  | some e =>
      if e.resetAt < now then
        let resetAt := now + cfg.windowMs
        ({ allowed := true
           remaining := cfg.maxRequests - 1
           limit := cfg.maxRequests
           resetAt := resetAt }, rlSet st k { count := 1, resetAt := resetAt })
      else if e.count < cfg.maxRequests then
        ({ allowed := true
           remaining := cfg.maxRequests - (e.count + 1)
           limit := cfg.maxRequests
           resetAt := e.resetAt },
         rlSet st k { count := e.count + 1, resetAt := e.resetAt })
      else
        ({ allowed := false
           remaining := 0
           limit := cfg.maxRequests
           resetAt := e.resetAt
           retryAfter := some ((e.resetAt - now + 999) / 1000) }, st)

/-- Run a sequence of `check` calls for one key, threading the store, and
collect the `allowed` flags. -/
def checkTimes (cfg : RateLimitConfig) (k : String) :
    RLStore → List Nat → List Bool
  | _, [] => []
  | st, t :: ts =>
      let p := RateLimiter.check cfg st k t
      p.1.allowed :: checkTimes cfg k p.2 ts

/-- What the model emits in one step of the orchestrator loop: either a
further tool-call request or a final answer. -/
inductive StepOutput
  | toolCall
  | finalAnswer
deriving DecidableEq, Repr

/-- Terminal state of one orchestrated turn. -/
inductive TurnResult
  | Finished
  | Aborted
deriving DecidableEq, Repr

/-- Modelled from the spec: the ChatOrchestrator turn loop of §4.4.  The
loop body itself lives in the external ai-sdk `streamText`; the repository
(`src/server.ts`) only configures it with `stopWhen: stepCountIs(10)`.
`b n` is what the model emits at step `n`; the fuel is the remaining step
budget.  A final answer ends the turn `Finished`; a tool call consumes one
step and re-invokes the model; an exhausted budget forces `Aborted`.
Returns the terminal state and the number of steps consumed. -/
def orchLoop (b : Nat → StepOutput) : Nat → Nat → TurnResult × Nat
  | 0, used => (TurnResult.Aborted, used)
  | fuel + 1, used =>
      match b used with
      | StepOutput.finalAnswer => (TurnResult.Finished, used + 1)
      | StepOutput.toolCall => orchLoop b fuel (used + 1)

/-- Modelled from the spec: one turn of the ChatOrchestrator with step
budget `budget` (configured to 10 in `src/server.ts`). -/
def orchestrate (b : Nat → StepOutput) (budget : Nat) : TurnResult × Nat :=
  orchLoop b budget 0

/-- Sample message (witness material). -/
def wMsgA : ConversationMessage :=
  { id := "m1", role := Role.user, content := "hello", timestamp := "t1" }

/-- Sample message (witness material). -/
def wMsgB : ConversationMessage :=
  { id := "m2", role := Role.assistant, content := "hi", timestamp := "t3" }

/-- Sample message (witness material). -/
def wMsgC : ConversationMessage :=
  { id := "m3", role := Role.user, content := "again", timestamp := "t2" }

/-- Sample session row (witness material). -/
def wSess10 : SessionInfo :=
  { sessionId := "7-zzz", createdAt := "t0", lastActivityAt := "t3"
    messageCount := 2, isActive := true }

/-- Sample agent state with two stored messages and `messageCount = 2`. -/
def wState10 : AgentState :=
  { messages := [wMsgA, wMsgB], contextRow := none, session := some wSess10 }

/-- Sample agent state whose session id was generated from
`Date.now() = 99`, random suffix `"aaa"`. -/
def wStateC2 : AgentState :=
  { messages := [wMsgA]
    contextRow := none
    session := some
      { sessionId := generateId 99 "aaa", createdAt := "t0"
        lastActivityAt := "t1", messageCount := 1, isActive := true } }

/-- Sample stored context row holding the single service tag `"KV"`. -/
def wCtxRowKV : Option CtxRow :=
  some { cloudflare_services := some (Parsed.ok ["KV"]) }

/-- Sample context row whose `error_logs` column holds unparseable text. -/
def wCorruptRow : CtxRow :=
  { error_logs := some Parsed.corrupt }

/-- A row written by `writeCtxRow` always reads back as the context it was
written from: the agent only serialises well-formed JSON. -/
theorem getPC_writeCtxRow (m : ProjectContext) :
    getProjectContext (some (writeCtxRow m)) = m := by
  obtain ⟨wc, el, ri, cs, pn, lu⟩ := m
  cases el <;> cases ri <;> cases cs <;>
    simp [getProjectContext, writeCtxRow, CtxRow.anyCorrupt, parsedVal]

/-- The context read back after `updateProjectContext` is exactly the merge
of the previously observable context with the update. -/
theorem updPC_eq (row : Option CtxRow) (upd : ProjectContext) (now : String) :
    getProjectContext (updateProjectContext row upd now).1
      = mergeContext (getProjectContext row) upd now := by
  simp [updateProjectContext, getPC_writeCtxRow]

/-- Membership through the `Set`-insertion fold. -/
theorem foldl_dedupStep_mem (l : List String) :
    ∀ (acc : List String) (a : String),
      a ∈ l.foldl dedupStep acc ↔ a ∈ acc ∨ a ∈ l := by
  induction l with
  | nil => intro acc a; simp
  | cons x xs ih =>
      intro acc a
      rw [List.foldl_cons, ih]
      by_cases hx : x ∈ acc
      · simp only [dedupStep, if_pos hx, List.mem_cons]
        constructor
        · rintro (h | h)
          · exact Or.inl h
          · exact Or.inr (Or.inr h)
        · rintro (h | h | h)
          · exact Or.inl h
          · exact Or.inl (h ▸ hx)
          · exact Or.inr h
      · simp only [dedupStep, if_neg hx, List.mem_append, List.mem_cons,
          List.not_mem_nil, or_false]
        constructor
        · rintro ((h | h) | h)
          · exact Or.inl h
          · exact Or.inr (Or.inl h)
          · exact Or.inr (Or.inr h)
        · rintro (h | h | h)
          · exact Or.inl (Or.inl h)
          · exact Or.inl (Or.inr h)
          · exact Or.inr h

/-- The `Set`-insertion fold preserves freedom from duplicates. -/
theorem foldl_dedupStep_nodup (l : List String) :
    ∀ acc : List String, acc.Nodup → (l.foldl dedupStep acc).Nodup := by
  induction l with
  | nil => intro acc h; simpa using h
  | cons x xs ih =>
      intro acc h
      rw [List.foldl_cons]
      apply ih
      by_cases hx : x ∈ acc
      · simpa [dedupStep, hx] using h
      · simp [dedupStep, hx, List.nodup_append, h]

/-- `jsSetDedup` returns a duplicate-free list. -/
theorem jsSetDedup_nodup (l : List String) : (jsSetDedup l).Nodup :=
  foldl_dedupStep_nodup l [] List.nodup_nil

/-- `jsSetDedup` keeps exactly the elements of its input. -/
theorem jsSetDedup_mem (l : List String) (a : String) :
    a ∈ jsSetDedup l ↔ a ∈ l := by
  rw [jsSetDedup, foldl_dedupStep_mem]; simp

/-- `Map.get` on the empty store. -/
theorem rlGet_nil (k : String) : rlGet [] k = none := rfl

/-- `Map.get` right after `Map.set` of the same key. -/
theorem rlGet_rlSet_self (st : RLStore) (k : String) (e : RateLimitEntry) :
    rlGet (rlSet st k e) k = some e := by
  induction st with
  | nil => simp [rlGet, rlSet, List.find?]
  | cons p rest ih =>
      obtain ⟨k', e'⟩ := p
      by_cases h : k' = k
      · simp [rlGet, rlSet, h, List.find?]
      · simpa [rlGet, rlSet, h, List.find?] using ih

/-- `Map.get` of the key just stored at the head of the store. -/
theorem rlGet_cons_self (st : RLStore) (k : String) (e : RateLimitEntry) :
    rlGet ((k, e) :: st) k = some e := by
  simp [rlGet, List.find?]

/-- A model that requests a tool call at every step drives the loop through
all its fuel and ends `Aborted`, consuming exactly the fuel. -/
theorem orchLoop_allToolCalls (b : Nat → StepOutput)
    (hb : ∀ n, b n = StepOutput.toolCall) :
    ∀ fuel used, orchLoop b fuel used = (TurnResult.Aborted, used + fuel) := by
  intro fuel
  induction fuel with
  | zero => intro used; simp [orchLoop]
  | succ f ih =>
      intro used
      have hstep : orchLoop b (f + 1) used = orchLoop b f (used + 1) := by
        simp [orchLoop, hb used]
      rw [hstep, ih (used + 1)]
      congr 1
      omega

/-- Length accounting of the `deleteMessage` filter: retained plus removed
rows make up the whole table. -/
theorem deleteFilter_length_eq (l : List ConversationMessage) (mid : String) :
    (l.filter (fun m => m.id != mid)).length
      + l.countP (fun m => m.id == mid) = l.length := by
  induction l with
  | nil => rfl
  | cons m ms ih =>
      by_cases h : m.id = mid <;>
        simp [List.filter_cons, List.countP_cons, h] <;> omega

/-- With pairwise-distinct ids at most one row matches a given id. -/
theorem countP_id_le_one (l : List ConversationMessage)
    (hnd : (l.map (fun m => m.id)).Nodup) (mid : String) :
    l.countP (fun m => m.id == mid) ≤ 1 := by
  induction l with
  | nil => simp
  | cons m ms ih =>
      rw [List.map_cons, List.nodup_cons] at hnd
      by_cases h : m.id = mid
      · have hz : ms.countP (fun m => m.id == mid) = 0 := by
          rw [List.countP_eq_zero]
          intro a ha
          simp only [beq_iff_eq]
          intro hid
          exact hnd.1 (by
            rw [List.mem_map]
            exact ⟨a, ha, by rw [hid, ← h]⟩)
        simp [List.countP_cons, h, hz]
      · simpa [List.countP_cons, h] using ih hnd.2

/-- Deleting an id that is present strictly shrinks the messages table. -/
theorem deleteFilter_length_lt (l : List ConversationMessage) (mid : String)
    (hex : ∃ m ∈ l, m.id = mid) :
    (l.filter (fun m => m.id != mid)).length < l.length := by
  obtain ⟨m, hm, hid⟩ := hex
  have h1 := deleteFilter_length_eq l mid
  have h2 : 0 < l.countP (fun m => m.id == mid) :=
    List.countP_pos_iff.mpr ⟨m, hm, by simp [hid]⟩
  omega

/-- The history pipeline — filter, sort newest-first, optional LIMIT,
reverse — always yields non-decreasing timestamps. -/
theorem historyPairwiseAux (msgs : List ConversationMessage)
    (opts : GetHistoryOptions) :
    (getConversationHistory msgs opts).Pairwise
      (fun a b => a.timestamp ≤ b.timestamp) := by
  have hs : (List.insertionSort tsDescRel
      (msgs.filter (matchesFilter opts))).Pairwise tsDescRel :=
    List.sorted_insertionSort tsDescRel (msgs.filter (matchesFilter opts))
  unfold getConversationHistory
  rw [List.pairwise_reverse]
  rcases hl : opts.limit with _ | n
  · exact hs
  · by_cases hn : 0 < n
    · simp only [if_pos hn]
      exact List.Pairwise.sublist (List.take_sublist n _) hs
    · simpa only [if_neg hn] using hs

/-- C1: for every existing context (as observed through `getProjectContext`)
and every partial update, the context stored by `updateProjectContext` holds
exactly the existing `errorLogs` entries followed by the update's entries,
and likewise for `resolvedIssues` — no previously recorded list entry
disappears and nothing from the update is dropped. -/
theorem update_retains_list_entries (row : Option CtxRow)
    (upd : ProjectContext) (now : String) :
    (getProjectContext (updateProjectContext row upd now).1).errorLogs.getD []
        = (getProjectContext row).errorLogs.getD [] ++ upd.errorLogs.getD [] ∧
    (getProjectContext (updateProjectContext row upd now).1).resolvedIssues.getD []
        = (getProjectContext row).resolvedIssues.getD []
            ++ upd.resolvedIssues.getD [] := by
  rw [updPC_eq]
  constructor
  · rcases hu : upd.errorLogs with _ | pe <;>
      rcases hc : (getProjectContext row).errorLogs with _ | ce <;>
      simp [mergeContext, hu, hc]
  · rcases hu : upd.resolvedIssues with _ | pe <;>
      rcases hc : (getProjectContext row).resolvedIssues with _ | ce <;>
      simp [mergeContext, hu, hc]

/-- C5 counterexample: a single partial update carrying the same service tag
twice, applied when no context row exists yet, stores a duplicated
`cloudflareServices` list — the dedup branch only runs when the existing
context also carries the field. -/
theorem dedup_claim_counterexample :
    ¬ List.Nodup ((getProjectContext (updateProjectContext none
        { cloudflareServices := some ["KV", "KV"] } "t1").1).cloudflareServices.getD []) := by
  decide

/-- C5 amended: when the existing stored context already carries a
`cloudflareServices` list, the update stores the JS-`Set` deduplicated
union of the existing and supplied tags: it is duplicate-free and holds
exactly the tags of the two lists.  (When the existing context lacks the
field, the partial's list is stored verbatim — see the counterexample.) -/
theorem update_dedups_services (row : Option CtxRow) (upd : ProjectContext)
    (now : String) (cs ps : List String)
    (hc : (getProjectContext row).cloudflareServices = some cs)
    (hu : upd.cloudflareServices = some ps) :
    (getProjectContext (updateProjectContext row upd now).1).cloudflareServices
        = some (jsSetDedup (cs ++ ps)) ∧
    List.Nodup (jsSetDedup (cs ++ ps)) ∧
    ∀ a, a ∈ jsSetDedup (cs ++ ps) ↔ a ∈ cs ++ ps := by
  refine ⟨?_, jsSetDedup_nodup _, fun a => jsSetDedup_mem _ a⟩
  rw [updPC_eq]
  simp [mergeContext, hc, hu]

/-- C5 witness: applying the duplicated tag list `["KV", "KV"]` to a stored
context already holding `["KV"]` yields the single-element, duplicate-free
list `["KV"]`. -/
theorem update_dedups_services_witness :
    (getProjectContext (updateProjectContext wCtxRowKV
        { cloudflareServices := some ["KV", "KV"] } "t1").1).cloudflareServices
        = some (jsSetDedup (["KV"] ++ ["KV", "KV"])) ∧
    List.Nodup (jsSetDedup (["KV"] ++ ["KV", "KV"])) :=
  ⟨(update_dedups_services wCtxRowKV { cloudflareServices := some ["KV", "KV"] }
      "t1" ["KV"] ["KV", "KV"] (by decide) rfl).1,
   (update_dedups_services wCtxRowKV { cloudflareServices := some ["KV", "KV"] }
      "t1" ["KV"] ["KV", "KV"] (by decide) rfl).2.1⟩

/-- C6: applying the same partial update a second time (at any later merge
time) leaves the scalar fields `workerCode` and `projectName` of the stored
context unchanged: present update values overwrite with the same value
again, absent ones keep the stored value. -/
theorem update_scalar_idempotent (row : Option CtxRow) (upd : ProjectContext)
    (now now' : String) :
    (getProjectContext (updateProjectContext
        (updateProjectContext row upd now).1 upd now').1).workerCode
      = (getProjectContext (updateProjectContext row upd now).1).workerCode ∧
    (getProjectContext (updateProjectContext
        (updateProjectContext row upd now).1 upd now').1).projectName
      = (getProjectContext (updateProjectContext row upd now).1).projectName := by
  rw [updPC_eq, updPC_eq]
  constructor
  · rcases hu : upd.workerCode with _ | v <;> simp [mergeContext, hu]
  · rcases hu : upd.projectName with _ | v <;> simp [mergeContext, hu]

/-- C8: `getProjectContext` returns a `ProjectContext` on every store state
(it is a total function of the stored row): the empty context when no
`project_context` row exists, and — via its `catch` — the empty context
when any stored JSON column is unreadable.  No error reaches the caller. -/
theorem getContext_never_fails (row : Option CtxRow) :
    (row = none → getProjectContext row = {}) ∧
    (∀ r, row = some r → r.anyCorrupt = true → getProjectContext row = {}) := by
  constructor
  · intro h; subst h; rfl
  · intro r h hc; subst h; simp [getProjectContext, hc]

/-- C8 witness: the missing-row state and a state whose `error_logs` column
holds unparseable text both read back as the empty context. -/
theorem getContext_never_fails_witness :
    getProjectContext none = {} ∧ getProjectContext (some wCorruptRow) = {} :=
  ⟨(getContext_never_fails none).1 rfl,
   (getContext_never_fails (some wCorruptRow)).2 wCorruptRow rfl (by decide)⟩

/-- C2 counterexample: `generateId` (timestamp + random, no collision
check) can reproduce the previous session id; when the clear-time draw
repeats the pair that generated the old id, `getSession` after
`clearSession` returns the *same* `sessionId` as before the clear, so the
"new sessionId" part of the claim fails on the code. -/
theorem clear_session_id_collision :
    (getSessionInfo (clearSession wStateC2 "t9" (generateId 99 "aaa")) "x" "y").sessionId
      = (getSessionInfo wStateC2 "p" "q").sessionId := rfl

/-- C2 amended: after `clearSession` (which draws fresh `now`/id inputs for
the re-initialised session), the history is empty for every filter, the
context is empty, and `getSession` returns a session with `messageCount = 0`
whose `sessionId` is the freshly generated id; that id differs from the
pre-clear `sessionId` whenever the time+random generator does not repeat
the old id (which the generation scheme does not itself guarantee). -/
theorem clear_session_resets (s : AgentState) (now sid n2 s2 : String)
    (opts : GetHistoryOptions) :
    getConversationHistory (clearSession s now sid).messages opts = [] ∧
    getProjectContext (clearSession s now sid).contextRow = {} ∧
    (getSessionInfo (clearSession s now sid) n2 s2).messageCount = 0 ∧
    (getSessionInfo (clearSession s now sid) n2 s2).sessionId = sid ∧
    (∀ old, s.session = some old → sid ≠ old.sessionId →
      (getSessionInfo (clearSession s now sid) n2 s2).sessionId ≠ old.sessionId) := by
  refine ⟨?_, rfl, rfl, rfl, ?_⟩
  · unfold getConversationHistory clearSession
    rcases opts.limit with _ | n <;> simp
  · intro old hold hne
    simpa [clearSession, getSessionInfo, ensureSession] using hne

/-- C2 witness: clearing the sample state with a fresh id empties history
and context, resets the count, and installs the new, distinct session id. -/
theorem clear_session_resets_witness :
    getConversationHistory (clearSession wStateC2 "t9" "fresh-1").messages {} = [] ∧
    getProjectContext (clearSession wStateC2 "t9" "fresh-1").contextRow = {} ∧
    (getSessionInfo (clearSession wStateC2 "t9" "fresh-1") "x" "y").messageCount = 0 ∧
    (getSessionInfo (clearSession wStateC2 "t9" "fresh-1") "x" "y").sessionId = "fresh-1" ∧
    (getSessionInfo (clearSession wStateC2 "t9" "fresh-1") "x" "y").sessionId
      ≠ generateId 99 "aaa" :=
  ⟨(clear_session_resets wStateC2 "t9" "fresh-1" "x" "y" {}).1,
   (clear_session_resets wStateC2 "t9" "fresh-1" "x" "y" {}).2.1,
   (clear_session_resets wStateC2 "t9" "fresh-1" "x" "y" {}).2.2.1,
   (clear_session_resets wStateC2 "t9" "fresh-1" "x" "y" {}).2.2.2.1,
   (clear_session_resets wStateC2 "t9" "fresh-1" "x" "y" {}).2.2.2.2
     { sessionId := generateId 99 "aaa", createdAt := "t0"
       lastActivityAt := "t1", messageCount := 1, isActive := true }
     rfl (by decide)⟩

/-- C3: for every stored message list (any storage order) and every filter
combination, `getConversationHistory` returns its rows in non-decreasing
timestamp order. -/
theorem history_sorted_ascending (msgs : List ConversationMessage)
    (opts : GetHistoryOptions) :
    (getConversationHistory msgs opts).Pairwise
      (fun a b => a.timestamp ≤ b.timestamp) :=
  historyPairwiseAux msgs opts

/-- C9: with a positive `limit` smaller than the number of stored messages,
`getConversationHistory` returns exactly `n` messages — the `LIMIT` applied
to the newest-first ordering, i.e. the `n` greatest timestamps — presented
in ascending order: every returned message's timestamp is at least every
omitted message's timestamp. -/
theorem limit_returns_most_recent (msgs : List ConversationMessage) (n : Nat)
    (hn : 0 < n) (hlen : n < msgs.length) :
    (getConversationHistory msgs { limit := some n }).length = n ∧
    getConversationHistory msgs { limit := some n }
      = ((List.insertionSort tsDescRel msgs).take n).reverse ∧
    (∀ a, a ∈ getConversationHistory msgs { limit := some n } →
      ∀ b, b ∈ (List.insertionSort tsDescRel msgs).drop n →
        b.timestamp ≤ a.timestamp) ∧
    (getConversationHistory msgs { limit := some n }).Pairwise
      (fun a b => a.timestamp ≤ b.timestamp) := by
  have hfilter : msgs.filter (matchesFilter { limit := some n }) = msgs := by
    simp [matchesFilter]
  have heq : getConversationHistory msgs { limit := some n }
      = ((List.insertionSort tsDescRel msgs).take n).reverse := by
    unfold getConversationHistory
    rw [hfilter]
    simp [hn]
  refine ⟨?_, heq, ?_, historyPairwiseAux msgs _⟩
  · have hlen2 : (List.insertionSort tsDescRel msgs).length = msgs.length :=
      (List.perm_insertionSort tsDescRel msgs).length_eq
    rw [heq]
    simp [List.length_take, hlen2]
    omega
  · intro a ha b hb
    have hp : (List.insertionSort tsDescRel msgs).Pairwise tsDescRel :=
      List.sorted_insertionSort tsDescRel msgs
    rw [← List.take_append_drop n (List.insertionSort tsDescRel msgs)] at hp
    have hrel := (List.pairwise_append.mp hp).2.2
    rw [heq, List.mem_reverse] at ha
    exact hrel a ha b hb

/-- C9 witness: of three stored messages (timestamps t1, t3, t2 in storage
order) a limit of 2 returns the two most recent, ascending. -/
theorem limit_returns_most_recent_witness :
    (getConversationHistory [wMsgA, wMsgB, wMsgC] { limit := some 2 }).length = 2 ∧
    getConversationHistory [wMsgA, wMsgB, wMsgC] { limit := some 2 }
      = ((List.insertionSort tsDescRel [wMsgA, wMsgB, wMsgC]).take 2).reverse :=
  ⟨(limit_returns_most_recent [wMsgA, wMsgB, wMsgC] 2 (by decide) (by decide)).1,
   (limit_returns_most_recent [wMsgA, wMsgB, wMsgC] 2 (by decide) (by decide)).2.1⟩

/-- C10: `deleteMessage` removes exactly the rows whose id matches (with
unique ids, at most one row) and returns `true`; the `session_info` record
— in particular `messageCount` and `lastActivityAt` — and the project
context are untouched, so when the count was in sync with the table and the
id was present, the count afterwards exceeds the number of stored rows. -/
theorem delete_message_frame (s : AgentState) (mid : String) :
    (deleteMessage s mid).1.session = s.session ∧
    (deleteMessage s mid).1.contextRow = s.contextRow ∧
    (deleteMessage s mid).2 = true ∧
    (∀ m, m ∈ (deleteMessage s mid).1.messages → m ∈ s.messages ∧ m.id ≠ mid) ∧
    (∀ m, m ∈ s.messages → m.id ≠ mid → m ∈ (deleteMessage s mid).1.messages) ∧
    ((s.messages.map (fun m => m.id)).Nodup →
      s.messages.length ≤ (deleteMessage s mid).1.messages.length + 1) ∧
    (∀ sess, s.session = some sess → sess.messageCount = s.messages.length →
      (∃ m ∈ s.messages, m.id = mid) →
      (deleteMessage s mid).1.messages.length < sess.messageCount) := by
  refine ⟨rfl, rfl, rfl, ?_, ?_, ?_, ?_⟩
  · intro m hm
    simp only [deleteMessage, List.mem_filter, bne_iff_ne, ne_eq] at hm
    exact ⟨hm.1, hm.2⟩
  · intro m hm hne
    simp only [deleteMessage, List.mem_filter, bne_iff_ne, ne_eq]
    exact ⟨hm, hne⟩
  · intro hnd
    have h1 := deleteFilter_length_eq s.messages mid
    have h2 := countP_id_le_one s.messages hnd mid
    simp only [deleteMessage]
    omega
  · intro sess hsess hcount hex
    have h3 := deleteFilter_length_lt s.messages mid hex
    simp only [deleteMessage]
    omega

/-- C10 witness: deleting `"m1"` from a two-message state with
`messageCount = 2` keeps the session row identical and leaves the count at
2 while only one message row remains. -/
theorem delete_message_frame_witness :
    (deleteMessage wState10 "m1").1.session = wState10.session ∧
    (deleteMessage wState10 "m1").1.contextRow = wState10.contextRow ∧
    (deleteMessage wState10 "m1").2 = true ∧
    wMsgB ∈ (deleteMessage wState10 "m1").1.messages ∧
    wState10.messages.length ≤ (deleteMessage wState10 "m1").1.messages.length + 1 ∧
    (deleteMessage wState10 "m1").1.messages.length < wSess10.messageCount :=
  ⟨(delete_message_frame wState10 "m1").1,
   (delete_message_frame wState10 "m1").2.1,
   (delete_message_frame wState10 "m1").2.2.1,
   (delete_message_frame wState10 "m1").2.2.2.2.1 wMsgB (by decide) (by decide),
   (delete_message_frame wState10 "m1").2.2.2.2.2.1 (by decide),
   (delete_message_frame wState10 "m1").2.2.2.2.2.2 wSess10 rfl (by decide)
     ⟨wMsgA, by decide, rfl⟩⟩

/-- C4: with `maxRequests = 3, windowMs = 1000`, four `check` calls for one
key starting from a state without that key, all at times within 1000 ms of
the first, yield `allowed = [true, true, true, false]`; and any `check`
strictly after an entry's `resetAt` installs a fresh entry with `count = 1`
(and is allowed). -/
theorem rate_limiter_window :
    (∀ (k : String) (t0 t1 t2 t3 : Nat),
        t1 ≤ t0 + 1000 → t2 ≤ t0 + 1000 → t3 ≤ t0 + 1000 →
        checkTimes ⟨3, 1000⟩ k [] [t0, t1, t2, t3] = [true, true, true, false]) ∧
    (∀ (cfg : RateLimitConfig) (st : RLStore) (k : String) (now : Nat)
        (e : RateLimitEntry), rlGet st k = some e → e.resetAt < now →
        (RateLimiter.check cfg st k now).1.allowed = true ∧
        rlGet (RateLimiter.check cfg st k now).2 k
          = some { count := 1, resetAt := now + cfg.windowMs }) := by
  constructor
  · intro k t0 t1 t2 t3 h1 h2 h3
    have n1 : ¬ (t0 + 1000 < t1) := by omega
    have n2 : ¬ (t0 + 1000 < t2) := by omega
    have n3 : ¬ (t0 + 1000 < t3) := by omega
    simp [checkTimes, RateLimiter.check, rlGet_nil, rlGet_cons_self, rlSet,
      n1, n2, n3]
  · intro cfg st k now e hget hlt
    constructor
    · simp [RateLimiter.check, hget, hlt]
    · simp [RateLimiter.check, hget, hlt, rlGet_rlSet_self]

/-- C4 witness: key `"a"`, calls at 0, 10, 20, 30 ms give
`[true, true, true, false]`; a call at 6 against an entry with
`resetAt = 5` is allowed and resets the entry to `{count 1, resetAt 1006}`. -/
theorem rate_limiter_window_witness :
    checkTimes ⟨3, 1000⟩ "a" [] [0, 10, 20, 30] = [true, true, true, false] ∧
    (RateLimiter.check ⟨3, 1000⟩ [("a", ⟨2, 5⟩)] "a" 6).1.allowed = true ∧
    rlGet (RateLimiter.check ⟨3, 1000⟩ [("a", ⟨2, 5⟩)] "a" 6).2 "a"
      = some { count := 1, resetAt := 1006 } :=
  ⟨rate_limiter_window.1 "a" 0 10 20 30 (by decide) (by decide) (by decide),
   (rate_limiter_window.2 ⟨3, 1000⟩ [("a", ⟨2, 5⟩)] "a" 6 ⟨2, 5⟩
      (by decide) (by decide)).1,
   (rate_limiter_window.2 ⟨3, 1000⟩ [("a", ⟨2, 5⟩)] "a" 6 ⟨2, 5⟩
      (by decide) (by decide)).2⟩

/-- C7: against a tool catalogue whose model answer requests another tool
call at every step, the orchestrator turn with the configured budget of 10
terminates in `Aborted` having consumed exactly 10 steps — never fewer,
never more, never infinitely (the loop is structurally fuel-bounded). -/
theorem step_budget_aborts (b : Nat → StepOutput)
    (hb : ∀ n, b n = StepOutput.toolCall) :
    orchestrate b 10 = (TurnResult.Aborted, 10) := by
  have h := orchLoop_allToolCalls b hb 10 0
  simpa [orchestrate] using h

/-- C7 witness: the constant always-tool-calling model aborts at exactly 10
steps. -/
theorem step_budget_aborts_witness :
    orchestrate (fun _ => StepOutput.toolCall) 10 = (TurnResult.Aborted, 10) :=
  step_budget_aborts (fun _ => StepOutput.toolCall) (fun _ => rfl)
